import Mathlib

/-!
Verification of the Confirmation Aggregation Engine of the
intellectual-honesty-analyzer repository.

The engine is embedded over exact rationals (ℚ): the source operates on
IEEE doubles, and every numeric literal involved (`0.0001`, `0.001`,
`1000`) is exactly representable, so the control flow of the embedding
matches the source on a common interpretation of the arithmetic as exact.

Source of the Cluster Scorer: `processBayesianConfirmation` in
`src/unnamed/part_000` (lines 214-284).  Source of the Cross-Cluster
Combiner: the `scores` accumulation in `chatWithAnalyst`
(`src/unnamed/part_000`, lines 569-574).
-/

/-- One caller-supplied judgment `{hypothesis_id, Q_i, U_i}`
(the element type of `analysisData` in `processBayesianConfirmation`). -/
structure Judgment where
  hypothesis_id : String
  Q_i : ℚ
  U_i : ℚ
  deriving DecidableEq, Repr

instance : Inhabited Judgment := ⟨⟨"", 0, 0⟩⟩

/-- The `CalculationResult` interface of `src/unnamed/part_000` (lines 141-147). -/
structure CalculationResult where
  hypothesis_id : String
  prior_P_H : ℚ
  likelihood_P_E_H : ℚ
  catchall_P_E_NotH : ℚ
  LR : ℚ
  deriving DecidableEq, Repr

/-- Source: `const sumQ = analysisData.reduce((sum, item) => sum + item.Q_i, 0)`. -/
def sumQ (analysisData : List Judgment) : ℚ :=
  (analysisData.map Judgment.Q_i).sum

/-- Source: `const safeSumQ = sumQ === 0 ? 1 : sumQ`. -/
def safeSumQ (analysisData : List Judgment) : ℚ :=
  if sumQ analysisData = 0 then 1 else sumQ analysisData

/-- One entry of the `priors` array: `item.Q_i / safeSumQ`. -/
def prior (analysisData : List Judgment) (item : Judgment) : ℚ :=
  item.Q_i / safeSumQ analysisData

/-- The inner `for j` accumulation of `U_not_i`:
`U_not_i += (priors[j].val / weightDenominator) * analysisData[j].U_i`
over `j ≠ i` (contributing `0` at `j = i` instead of skipping it). -/
def catchallAt (analysisData : List Judgment) (i : ℕ) (weightDenominator : ℚ) : ℚ :=
  ((List.range analysisData.length).map fun j =>
    if i = j then 0
    else prior analysisData (analysisData.getD j default) / weightDenominator *
      (analysisData.getD j default).U_i).sum

/-- The body of the outer `for i` loop of `processBayesianConfirmation`:
the `CalculationResult` pushed for index `i` (where `currentH = analysisData[i]`). -/
def scoreAt (analysisData : List Judgment) (i : ℕ) (currentH : Judgment) : CalculationResult :=
  let P_Hi := prior analysisData currentH
  let U_i := currentH.U_i
  let weightDenominator := 1 - P_Hi
  if weightDenominator ≤ 1 / 10000 then
    { hypothesis_id := currentH.hypothesis_id, prior_P_H := P_Hi,
      likelihood_P_E_H := U_i, catchall_P_E_NotH := 0, LR := 1 }
  else
    let U_not_i := catchallAt analysisData i weightDenominator
    let safe_U_not_i := if U_not_i = 0 then 1 / 1000 else U_not_i
    { hypothesis_id := currentH.hypothesis_id, prior_P_H := P_Hi,
      likelihood_P_E_H := U_i, catchall_P_E_NotH := U_not_i,
      LR := min (max (U_i / safe_U_not_i) (1 / 1000)) 1000 }

/-- Function `processBayesianConfirmation` of `src/unnamed/part_000` (lines 214-284):
the Cluster Scorer, one `CalculationResult` per input judgment, in order. -/
def processBayesianConfirmation (analysisData : List Judgment) : List CalculationResult :=
  (List.range analysisData.length).map fun i =>
    scoreAt analysisData i (analysisData.getD i default)

instance : Inhabited CalculationResult := ⟨⟨"", 0, 0, 0, 0⟩⟩

/-- The output list has one entry per input judgment. -/
lemma length_processBayesianConfirmation (l : List Judgment) :
    (processBayesianConfirmation l).length = l.length := by
  simp [processBayesianConfirmation]

/-- Entry `i` of the output is the result pushed by loop iteration `i`. -/
lemma processBayesianConfirmation_getD (l : List Judgment) (i : ℕ) (hi : i < l.length) :
    (processBayesianConfirmation l).getD i default = scoreAt l i (l.getD i default) := by
  have hlen : i < (processBayesianConfirmation l).length := by
    simpa [length_processBayesianConfirmation] using hi
  rw [List.getD_eq_getElem _ _ hlen]
  simp [processBayesianConfirmation]

/-- Every member of the output arises from some loop iteration `i < M`. -/
lemma mem_processBayesianConfirmation {l : List Judgment} {r : CalculationResult}
    (hr : r ∈ processBayesianConfirmation l) :
    ∃ i, i < l.length ∧ r = scoreAt l i (l.getD i default) := by
  rcases List.mem_map.mp hr with ⟨i, hi, hscore⟩
  exact ⟨i, List.mem_range.mp hi, hscore.symm⟩

/-- Both branches of the scorer emit `prior_P_H = Q_i / safeSumQ`. -/
lemma scoreAt_prior (l : List Judgment) (i : ℕ) (item : Judgment) :
    (scoreAt l i item).prior_P_H = prior l item := by
  simp only [scoreAt]
  split <;> rfl

/-- Both branches of the scorer emit `likelihood_P_E_H = U_i`. -/
lemma scoreAt_likelihood (l : List Judgment) (i : ℕ) (item : Judgment) :
    (scoreAt l i item).likelihood_P_E_H = item.U_i := by
  simp only [scoreAt]
  split <;> rfl

/-- The substituted denominator `safeSumQ` is never zero. -/
lemma safeSumQ_ne_zero (l : List Judgment) : safeSumQ l ≠ 0 := by
  unfold safeSumQ
  split
  · norm_num
  · assumption

/-- C1: for every non-empty judgment list with nonnegative `Q` and `U`,
every `LR` in the Cluster Scorer's output lies in `[0.001, 1000]`. -/
theorem C1_LR_within_bounds (l : List Judgment) (hne : l ≠ [])
    (hQU : ∀ item ∈ l, 0 ≤ item.Q_i ∧ 0 ≤ item.U_i) :
    ∀ r ∈ processBayesianConfirmation l, 1 / 1000 ≤ r.LR ∧ r.LR ≤ 1000 := by
  intro r hr
  rcases mem_processBayesianConfirmation hr with ⟨i, hi, rfl⟩
  simp only [scoreAt]
  split
  · constructor <;> norm_num
  · exact ⟨le_min (le_max_right _ _) (by norm_num), min_le_right _ _⟩

/-- Witness for C1 at the concrete two-judgment cluster. -/
theorem C1_witness :
    ([⟨"H1", 2, 5⟩, ⟨"H2", 1, 1⟩] : List Judgment) ≠ [] ∧
    (∀ item ∈ ([⟨"H1", 2, 5⟩, ⟨"H2", 1, 1⟩] : List Judgment), 0 ≤ item.Q_i ∧ 0 ≤ item.U_i) ∧
    ∀ r ∈ processBayesianConfirmation [⟨"H1", 2, 5⟩, ⟨"H2", 1, 1⟩],
      1 / 1000 ≤ r.LR ∧ r.LR ≤ 1000 :=
  ⟨by simp, by norm_num,
    C1_LR_within_bounds _ (by simp) (by norm_num)⟩

/-- C4: the concrete two-hypothesis scenario `H1:{Q=2,U=5}`, `H2:{Q=1,U=1}`
yields priors `2/3, 1/3`, catch-alls `1, 5` and LRs `5, 0.2`. -/
theorem C4_concrete_two_hypothesis :
    processBayesianConfirmation [⟨"H1", 2, 5⟩, ⟨"H2", 1, 1⟩] =
      [⟨"H1", 2/3, 5, 1, 5⟩, ⟨"H2", 1/3, 1, 5, 1/5⟩] := by
  norm_num [processBayesianConfirmation, scoreAt, catchallAt, prior, safeSumQ, sumQ,
    List.range_succ]

/-- C7: whenever `1 - P(H_i) ≤ 1e-4`, the scorer emits `catchall = 0` and `LR = 1`
for that hypothesis. -/
theorem C7_degenerate_short_circuit (l : List Judgment) (i : ℕ) (hi : i < l.length)
    (hd : 1 - prior l (l.getD i default) ≤ 1 / 10000) :
    ((processBayesianConfirmation l).getD i default).catchall_P_E_NotH = 0 ∧
    ((processBayesianConfirmation l).getD i default).LR = 1 := by
  rw [processBayesianConfirmation_getD l i hi]
  simp only [scoreAt]
  rw [if_pos hd]
  exact ⟨rfl, rfl⟩

/-- Witness for C7 at a single near-certain judgment. -/
theorem C7_witness :
    (0 : ℕ) < ([⟨"H1", 1, 1⟩] : List Judgment).length ∧
    1 - prior [⟨"H1", 1, 1⟩] (([⟨"H1", 1, 1⟩] : List Judgment).getD 0 default) ≤ 1 / 10000 ∧
    (((processBayesianConfirmation [⟨"H1", 1, 1⟩]).getD 0 default).catchall_P_E_NotH = 0 ∧
      ((processBayesianConfirmation [⟨"H1", 1, 1⟩]).getD 0 default).LR = 1) :=
  ⟨by norm_num, by norm_num [prior, safeSumQ, sumQ],
    C7_degenerate_short_circuit _ 0 (by norm_num) (by norm_num [prior, safeSumQ, sumQ])⟩

/-- C10: on the non-degenerate path with accumulated catch-all exactly `0`,
the emitted `catchall` field is the raw `0` while the emitted `LR` is the clamp
of `U_i / 0.001`. -/
theorem C10_zero_catchall_substitution (l : List Judgment) (i : ℕ) (hi : i < l.length)
    (hwd : ¬(1 - prior l (l.getD i default) ≤ 1 / 10000))
    (hzero : catchallAt l i (1 - prior l (l.getD i default)) = 0) :
    ((processBayesianConfirmation l).getD i default).catchall_P_E_NotH = 0 ∧
    ((processBayesianConfirmation l).getD i default).LR =
      min (max ((l.getD i default).U_i / (1 / 1000)) (1 / 1000)) 1000 := by
  rw [processBayesianConfirmation_getD l i hi]
  simp only [scoreAt]
  rw [if_neg hwd, hzero]
  norm_num

/-- Witness for C10: second judgment has `U = 0`, so the catch-all sum for the
first hypothesis accumulates to exactly `0`. -/
theorem C10_witness :
    (0 : ℕ) < ([⟨"A", 1, 7⟩, ⟨"B", 1, 0⟩] : List Judgment).length ∧
    ¬(1 - prior [⟨"A", 1, 7⟩, ⟨"B", 1, 0⟩]
        (([⟨"A", 1, 7⟩, ⟨"B", 1, 0⟩] : List Judgment).getD 0 default) ≤ 1 / 10000) ∧
    catchallAt [⟨"A", 1, 7⟩, ⟨"B", 1, 0⟩] 0
      (1 - prior [⟨"A", 1, 7⟩, ⟨"B", 1, 0⟩]
        (([⟨"A", 1, 7⟩, ⟨"B", 1, 0⟩] : List Judgment).getD 0 default)) = 0 ∧
    (((processBayesianConfirmation [⟨"A", 1, 7⟩, ⟨"B", 1, 0⟩]).getD 0 default).catchall_P_E_NotH = 0 ∧
      ((processBayesianConfirmation [⟨"A", 1, 7⟩, ⟨"B", 1, 0⟩]).getD 0 default).LR =
        min (max ((([⟨"A", 1, 7⟩, ⟨"B", 1, 0⟩] : List Judgment).getD 0 default).U_i / (1 / 1000))
          (1 / 1000)) 1000) :=
  ⟨by norm_num, by norm_num [prior, safeSumQ, sumQ],
    by norm_num [catchallAt, prior, safeSumQ, sumQ, List.range_succ],
    C10_zero_catchall_substitution _ 0 (by norm_num)
      (by norm_num [prior, safeSumQ, sumQ])
      (by norm_num [catchallAt, prior, safeSumQ, sumQ, List.range_succ])⟩

/-- Counterexample to C6 as stated: a single judgment with `Q = 0` (allowed by
the claim's `Q ≥ 0`) yields `LR = 1000`, not `1`. -/
theorem C6_counterexample :
    processBayesianConfirmation [⟨"H1", 0, 1⟩] = [⟨"H1", 0, 1, 0, 1000⟩] ∧
    (1000 : ℚ) ≠ 1 := by
  constructor
  · norm_num [processBayesianConfirmation, scoreAt, catchallAt, prior, safeSumQ, sumQ,
      List.range_succ]
  · norm_num

/-- C6 (amended): for a single judgment with `Q > 0` (and `U ≥ 0`), the scorer
emits `prior = 1`, `catchall = 0` and `LR = 1`. -/
theorem C6_single_judgment_amended (j : Judgment) (hq : 0 < j.Q_i) (hu : 0 ≤ j.U_i) :
    processBayesianConfirmation [j] =
      [{ hypothesis_id := j.hypothesis_id, prior_P_H := 1, likelihood_P_E_H := j.U_i,
         catchall_P_E_NotH := 0, LR := 1 }] := by
  have h1 : prior [j] j = 1 := by
    simp only [prior, safeSumQ, sumQ, List.map_cons, List.map_nil, List.sum_cons,
      List.sum_nil, add_zero]
    rw [if_neg hq.ne']
    exact div_self hq.ne'
  have hlen : ([j] : List Judgment).length = 1 := rfl
  simp only [processBayesianConfirmation, hlen, List.range_succ, List.range_zero,
    List.nil_append, List.map_cons, List.map_nil, List.getD_cons_zero]
  simp only [scoreAt, h1]
  norm_num

/-- Reading each input judgment through `getD` over `List.range` is just a map. -/
lemma range_map_getD {β : Type} (l : List Judgment) (f : Judgment → β) :
    ((List.range l.length).map fun i => f (l.getD i default)) = l.map f := by
  apply List.ext_getElem
  · simp
  · intro i h₁ h₂
    simp only [List.getElem_map, List.getElem_range]
    rw [List.getD_eq_getElem l default (by simpa using h₂)]

/-- The element read by loop iteration `i` is a member of the input list. -/
lemma getD_mem (l : List Judgment) (i : ℕ) (hi : i < l.length) :
    l.getD i default ∈ l := by
  rw [List.getD_eq_getElem l default hi]
  exact List.getElem_mem hi

/-- The emitted priors are exactly `Q_i / safeSumQ`, listwise. -/
lemma priors_map (l : List Judgment) :
    (processBayesianConfirmation l).map CalculationResult.prior_P_H = l.map (prior l) := by
  unfold processBayesianConfirmation
  rw [List.map_map]
  have : (CalculationResult.prior_P_H ∘ fun i => scoreAt l i (l.getD i default)) =
      fun i => prior l (l.getD i default) := by
    funext i
    exact scoreAt_prior l i (l.getD i default)
  rw [this, range_map_getD]

/-- Dividing each `Q_i` by a common denominator divides the sum. -/
lemma sum_map_prior (l : List Judgment) :
    (l.map (prior l)).sum = sumQ l / safeSumQ l := by
  unfold prior sumQ
  simp only [div_eq_mul_inv]
  exact List.sum_map_mul_right l Judgment.Q_i (safeSumQ l)⁻¹

/-- The total prior mass `sumQ` is nonnegative when every `Q` is. -/
lemma sumQ_nonneg (l : List Judgment) (hQ : ∀ item ∈ l, 0 ≤ item.Q_i) : 0 ≤ sumQ l := by
  apply List.sum_nonneg
  intro x hx
  rcases List.mem_map.mp hx with ⟨item, hitem, rfl⟩
  exact hQ item hitem

/-- Each `Q_i` is at most the total `sumQ` when every `Q` is nonnegative. -/
lemma Q_le_sumQ (l : List Judgment) (hQ : ∀ item ∈ l, 0 ≤ item.Q_i)
    {item : Judgment} (hitem : item ∈ l) : item.Q_i ≤ sumQ l := by
  apply List.single_le_sum (l := l.map Judgment.Q_i)
  · intro x hx
    rcases List.mem_map.mp hx with ⟨it, hit, rfl⟩
    exact hQ it hit
  · exact List.mem_map_of_mem _ hitem

/-- C2: with all `Q ≥ 0`, nonzero `sumQ` gives priors `Q_i / sumQ`, each in `[0,1]`
and summing to `1`; zero `sumQ` gives substituted denominator `1` and all priors `0`. -/
theorem C2_priors_normalization (l : List Judgment) (hne : l ≠ [])
    (hQ : ∀ item ∈ l, 0 ≤ item.Q_i) :
    (sumQ l ≠ 0 →
      (∀ i, i < l.length →
        ((processBayesianConfirmation l).getD i default).prior_P_H =
          (l.getD i default).Q_i / sumQ l) ∧
      (∀ r ∈ processBayesianConfirmation l, 0 ≤ r.prior_P_H ∧ r.prior_P_H ≤ 1) ∧
      ((processBayesianConfirmation l).map CalculationResult.prior_P_H).sum = 1) ∧
    (sumQ l = 0 →
      safeSumQ l = 1 ∧ ∀ r ∈ processBayesianConfirmation l, r.prior_P_H = 0) := by
  constructor
  · intro hsum
    have hsafe : safeSumQ l = sumQ l := if_neg hsum
    have hpos : 0 < sumQ l := lt_of_le_of_ne (sumQ_nonneg l hQ) (Ne.symm hsum)
    refine ⟨?_, ?_, ?_⟩
    · intro i hi
      rw [processBayesianConfirmation_getD l i hi, scoreAt_prior]
      unfold prior
      rw [hsafe]
    · intro r hr
      rcases mem_processBayesianConfirmation hr with ⟨i, hi, rfl⟩
      rw [scoreAt_prior]
      unfold prior
      rw [hsafe]
      have hmem := getD_mem l i hi
      constructor
      · exact div_nonneg (hQ _ hmem) hpos.le
      · rw [div_le_one hpos]
        exact Q_le_sumQ l hQ hmem
    · rw [priors_map, sum_map_prior, hsafe, div_self hsum]
  · intro hsum
    have hsafe : safeSumQ l = 1 := if_pos hsum
    refine ⟨hsafe, ?_⟩
    intro r hr
    rcases mem_processBayesianConfirmation hr with ⟨i, hi, rfl⟩
    rw [scoreAt_prior]
    unfold prior
    rw [hsafe, div_one]
    have hmem := getD_mem l i hi
    have hle := Q_le_sumQ l hQ hmem
    rw [hsum] at hle
    exact le_antisymm hle (hQ _ hmem)

/-- Witness for C2 at the concrete two-judgment cluster. -/
theorem C2_witness :
    ([⟨"H1", 2, 5⟩, ⟨"H2", 1, 1⟩] : List Judgment) ≠ [] ∧
    (∀ item ∈ ([⟨"H1", 2, 5⟩, ⟨"H2", 1, 1⟩] : List Judgment), 0 ≤ item.Q_i) ∧
    ((sumQ [⟨"H1", 2, 5⟩, ⟨"H2", 1, 1⟩] ≠ 0 →
      (∀ i, i < ([⟨"H1", 2, 5⟩, ⟨"H2", 1, 1⟩] : List Judgment).length →
        ((processBayesianConfirmation [⟨"H1", 2, 5⟩, ⟨"H2", 1, 1⟩]).getD i default).prior_P_H =
          (([⟨"H1", 2, 5⟩, ⟨"H2", 1, 1⟩] : List Judgment).getD i default).Q_i /
            sumQ [⟨"H1", 2, 5⟩, ⟨"H2", 1, 1⟩]) ∧
      (∀ r ∈ processBayesianConfirmation [⟨"H1", 2, 5⟩, ⟨"H2", 1, 1⟩],
        0 ≤ r.prior_P_H ∧ r.prior_P_H ≤ 1) ∧
      ((processBayesianConfirmation [⟨"H1", 2, 5⟩, ⟨"H2", 1, 1⟩]).map
        CalculationResult.prior_P_H).sum = 1) ∧
    (sumQ [⟨"H1", 2, 5⟩, ⟨"H2", 1, 1⟩] = 0 →
      safeSumQ [⟨"H1", 2, 5⟩, ⟨"H2", 1, 1⟩] = 1 ∧
      ∀ r ∈ processBayesianConfirmation [⟨"H1", 2, 5⟩, ⟨"H2", 1, 1⟩], r.prior_P_H = 0)) :=
  ⟨by simp, by norm_num,
    C2_priors_normalization _ (by simp) (by norm_num)⟩

/-- Summing a constant over `range n` with position `i < n` zeroed out. -/
lemma sum_range_ite_const (c : ℚ) :
    ∀ n i : ℕ, i < n →
      (((List.range n).map fun j => if i = j then 0 else c)).sum = (n - 1 : ℕ) * c := by
  intro n
  induction n with
  | zero => intro i hi; omega
  | succ m ih =>
    intro i hi
    rw [List.range_succ, List.map_append, List.sum_append]
    by_cases him : i < m
    · rw [ih i him]
      have hne : i ≠ m := by omega
      have h1 : 1 ≤ m := by omega
      simp only [List.map_cons, List.map_nil, List.sum_cons, List.sum_nil, if_neg hne]
      rw [Nat.cast_sub h1]
      push_cast
      ring
    · have hie : i = m := by omega
      have hconst : ((List.range m).map fun j => if i = j then 0 else c) =
          (List.range m).map fun _ => c := by
        apply List.map_congr_left
        intro j hj
        have : j < m := List.mem_range.mp hj
        rw [if_neg (by omega)]
      rw [hconst]
      have hrep : ((List.range m).map fun _ => c) = List.replicate m c := by
        apply List.eq_replicate_iff.mpr
        constructor
        · simp
        · intro b hb
          rcases List.mem_map.mp hb with ⟨j, _, rfl⟩
          rfl
      rw [hrep, List.sum_replicate]
      simp only [List.map_cons, List.map_nil, List.sum_cons, List.sum_nil, if_pos hie]
      push_cast
      ring

/-- Counterexample to C5 as stated: all `Q` equal to `0` and all `U` equal to `1`
(allowed by the claim's `≥ 0`) yields `LR = 1000` for every hypothesis, not `1`. -/
theorem C5_counterexample :
    (∀ item ∈ ([⟨"A", 0, 1⟩, ⟨"B", 0, 1⟩] : List Judgment), item.Q_i = 0 ∧ item.U_i = 1) ∧
    (∀ item ∈ ([⟨"A", 0, 1⟩, ⟨"B", 0, 1⟩] : List Judgment), 0 ≤ item.Q_i ∧ 0 ≤ item.U_i) ∧
    ((processBayesianConfirmation [⟨"A", 0, 1⟩, ⟨"B", 0, 1⟩]).map CalculationResult.LR =
      [1000, 1000]) ∧
    (1000 : ℚ) ≠ 1 := by
  refine ⟨by norm_num, by norm_num, ?_, by norm_num⟩
  norm_num [processBayesianConfirmation, scoreAt, catchallAt, prior, safeSumQ, sumQ,
    List.range_succ]

/-- C5 (amended): uniform judgments with a common `Q = q > 0` and common `U = u > 0`
give `LR = 1` for every hypothesis. -/
theorem C5_uniform_neutral_amended (l : List Judgment) (q u : ℚ) (hne : l ≠ [])
    (hq : 0 < q) (hu : 0 < u) (hall : ∀ item ∈ l, item.Q_i = q ∧ item.U_i = u) :
    ∀ r ∈ processBayesianConfirmation l, r.LR = 1 := by
  intro r hr
  rcases mem_processBayesianConfirmation hr with ⟨i, hi, rfl⟩
  have hn : 0 < l.length := List.length_pos.mpr hne
  have hnQ : (l.length : ℚ) ≠ 0 := by
    exact_mod_cast Nat.pos_iff_ne_zero.mp hn
  have hmapQ : l.map Judgment.Q_i = List.replicate l.length q := by
    apply List.eq_replicate_iff.mpr
    constructor
    · simp
    · intro b hb
      rcases List.mem_map.mp hb with ⟨it, hit, rfl⟩
      exact (hall it hit).1
  have hsum : sumQ l = (l.length : ℚ) * q := by
    rw [sumQ, hmapQ, List.sum_replicate, nsmul_eq_mul]
  have hsum_ne : sumQ l ≠ 0 := by
    rw [hsum]; exact mul_ne_zero hnQ hq.ne'
  have hsafe : safeSumQ l = (l.length : ℚ) * q := by
    rw [safeSumQ, if_neg hsum_ne, hsum]
  have hprior : ∀ item ∈ l, prior l item = 1 / (l.length : ℚ) := by
    intro item hmem
    rw [prior, hsafe, (hall item hmem).1]
    rw [eq_div_iff hnQ]
    field_simp
    ring
  have hmem := getD_mem l i hi
  have hPi : prior l (l.getD i default) = 1 / (l.length : ℚ) := hprior _ hmem
  have hUi : (l.getD i default).U_i = u := (hall _ hmem).2
  by_cases hone : l.length = 1
  · simp only [scoreAt, hPi, hone]
    norm_num
  · have h2 : 2 ≤ l.length := by omega
    have h2Q : (2 : ℚ) ≤ (l.length : ℚ) := by exact_mod_cast h2
    have hwd : ¬(1 - 1 / (l.length : ℚ) ≤ 1 / 10000) := by
      have hhalf : 1 / (l.length : ℚ) ≤ 1 / 2 :=
        one_div_le_one_div_of_le (by norm_num) h2Q
      intro hcon
      linarith
    have hcast : ((l.length - 1 : ℕ) : ℚ) = (l.length : ℚ) - 1 :=
      Nat.cast_sub (by omega)
    have hne1 : (l.length : ℚ) - 1 ≠ 0 := by
      intro hcon
      have : (l.length : ℚ) = 1 := by linarith
      linarith
    have hcatch : catchallAt l i (1 - 1 / (l.length : ℚ)) = u := by
      unfold catchallAt
      have hcong : ∀ j ∈ List.range l.length,
          (if i = j then 0
           else prior l (l.getD j default) / (1 - 1 / (l.length : ℚ)) *
             (l.getD j default).U_i) =
          (if i = j then 0
           else (1 / (l.length : ℚ)) / (1 - 1 / (l.length : ℚ)) * u) := by
        intro j hj
        by_cases hij : i = j
        · rw [if_pos hij, if_pos hij]
        · have hjm := getD_mem l j (List.mem_range.mp hj)
          rw [if_neg hij, if_neg hij, hprior _ hjm, (hall _ hjm).2]
      rw [List.map_congr_left hcong, sum_range_ite_const _ _ _ hi, hcast]
      have hrw : 1 - 1 / (l.length : ℚ) = ((l.length : ℚ) - 1) / (l.length : ℚ) := by
        field_simp
      rw [hrw]
      field_simp
    simp only [scoreAt, hPi, hUi]
    rw [if_neg hwd, hcatch, if_neg hu.ne', div_self hu.ne']
    norm_num

/-- JS truthiness fallback `scores[hId] || 1`: a missing key reads as `1`, and —
a JavaScript quirk — so does a stored value of exactly `0`, because `0` is falsy. -/
def jsOrOne (o : Option ℚ) : ℚ :=
  match o with
  | some v => if v = 0 then 1 else v
  | none => 1

/-- One cluster's `Object.entries(cluster.lrs).forEach` pass over the running
`scores` record: `scores[hId] = (scores[hId] || 1) * val` for every key of the
cluster.  A JS `Record<string, number>` is modeled as `String → Option ℚ`
(its set of keys has each key bound to exactly one value). -/
def combineStep (scores cluster : String → Option ℚ) : String → Option ℚ :=
  fun hId =>
    match cluster hId with
    | none => scores hId
    | some val => some (jsOrOne (scores hId) * val)

/-- The Cross-Cluster Combiner: the `scores` accumulation of `chatWithAnalyst`
(`src/unnamed/part_000`, lines 569-574), folding every cluster's LR record into
an initially empty record. -/
def combine (clusters : List (String → Option ℚ)) : String → Option ℚ :=
  clusters.foldl combineStep fun _ => none

/-- The `|| 1` fallback never produces `0`. -/
lemma jsOrOne_ne_zero (o : Option ℚ) : jsOrOne o ≠ 0 := by
  cases o with
  | none => simp [jsOrOne]
  | some v =>
    simp only [jsOrOne]
    split
    · norm_num
    · assumption

/-- The fallback reads back a stored nonzero value unchanged. -/
lemma jsOrOne_some {v : ℚ} (hv : v ≠ 0) : jsOrOne (some v) = v := by
  simp [jsOrOne, hv]

/-- Characterization of the combiner fold: as long as no cluster stores a `0`
LR for the key, the accumulated entry is the product of the stored values (with
`1` for absent keys), times the fallback reading of the initial record. -/
lemma combine_foldl_char (hId : String) :
    ∀ (clusters : List (String → Option ℚ)) (scores : String → Option ℚ),
      (∀ c ∈ clusters, ∀ v, c hId = some v → v ≠ 0) →
      (∀ w, scores hId = some w → w ≠ 0) →
      clusters.foldl combineStep scores hId =
        if (clusters.any fun c => (c hId).isSome) = true
        then some (jsOrOne (scores hId) * (clusters.map fun c => (c hId).getD 1).prod)
        else scores hId := by
  intro clusters
  induction clusters with
  | nil => intro scores _ _; simp
  | cons c cs ih =>
    intro scores hnz hacc
    have hnzcs : ∀ c' ∈ cs, ∀ v, c' hId = some v → v ≠ 0 :=
      fun c' hc' => hnz c' (List.mem_cons_of_mem _ hc')
    rw [List.foldl_cons]
    cases hc : c hId with
    | none =>
      have hstep : combineStep scores c hId = scores hId := by
        simp [combineStep, hc]
      rw [ih (combineStep scores c) hnzcs (by rw [hstep]; exact hacc), hstep]
      simp [hc]
    | some v =>
      have hv : v ≠ 0 := hnz c (List.mem_cons_self c cs) v hc
      have hstep : combineStep scores c hId = some (jsOrOne (scores hId) * v) := by
        simp [combineStep, hc]
      have hprodne : jsOrOne (scores hId) * v ≠ 0 :=
        mul_ne_zero (jsOrOne_ne_zero _) hv
      have hacc' : ∀ w, combineStep scores c hId = some w → w ≠ 0 := by
        intro w hw
        rw [hstep] at hw
        cases hw
        exact hprodne
      rw [ih (combineStep scores c) hnzcs hacc', hstep, jsOrOne_some hprodne]
      cases hcs : (cs.any fun c' => (c' hId).isSome) with
      | true =>
        simp [hc, hcs, mul_assoc]
      | false =>
        have hnone : ∀ c' ∈ cs, c' hId = none := by
          intro c' hc'
          have hns := List.any_eq_false.mp hcs c' hc'
          cases hval : c' hId with
          | none => rfl
          | some w => rw [hval] at hns; simp at hns
        have hone : ((cs.map fun c' => (c' hId).getD 1)).prod = 1 := by
          apply List.prod_eq_one
          intro x hx
          rcases List.mem_map.mp hx with ⟨c', hc', rfl⟩
          rw [hnone c' hc']
          rfl
        simp [hc, hcs, hone]

/-- Specialization of the fold characterization to the initially empty record. -/
lemma combine_char (clusters : List (String → Option ℚ)) (hId : String)
    (hnz : ∀ c ∈ clusters, ∀ v, c hId = some v → v ≠ 0) :
    combine clusters hId =
      if (clusters.any fun c => (c hId).isSome) = true
      then some ((clusters.map fun c => (c hId).getD 1).prod)
      else none := by
  rw [combine, combine_foldl_char hId clusters _ hnz (by intro w hw; cases hw)]
  simp [jsOrOne]

/-- A cluster whose record stores LR `0` for hypothesis `"H"`. -/
def zeroLRCluster : String → Option ℚ := fun hId => if hId = "H" then some 0 else none

/-- A cluster whose record stores LR `2` for hypothesis `"H"`. -/
def twoLRCluster : String → Option ℚ := fun hId => if hId = "H" then some 2 else none

/-- A cluster reporting LR `4` for every hypothesis. -/
def fourLRCluster : String → Option ℚ := fun _ => some 4

/-- A cluster reporting LR `1/2` for every hypothesis. -/
def halfLRCluster : String → Option ℚ := fun _ => some (1 / 2)

/-- The two concrete combiner inputs used below carry no zero LR values. -/
lemma fourHalf_nonzero :
    ∀ c ∈ ([fourLRCluster, halfLRCluster] : List (String → Option ℚ)),
      ∀ hId v, c hId = some v → v ≠ 0 := by
  intro c hc hId v hv
  rcases List.mem_cons.mp hc with rfl | hc
  · simp only [fourLRCluster] at hv
    cases hv
    norm_num
  · rcases List.mem_cons.mp hc with rfl | hc
    · simp only [halfLRCluster] at hv
      cases hv
      norm_num
    · simp at hc

/-- Counterexample to C3 as stated: with a stored LR of exactly `0`, the JS
`scores[hId] || 1` fallback resets the accumulator, so the combined value is
`2` while the product of the stored LR values is `0`. -/
theorem C3_counterexample :
    combine [zeroLRCluster, twoLRCluster] "H" = some 2 ∧
    ((([zeroLRCluster, twoLRCluster] : List (String → Option ℚ)).map
      fun c => ((c "H").getD 1)).prod) = 0 ∧
    (2 : ℚ) ≠ 0 := by
  refine ⟨?_, ?_, by norm_num⟩
  · norm_num [combine, combineStep, jsOrOne, zeroLRCluster, twoLRCluster]
  · norm_num [zeroLRCluster, twoLRCluster]

/-- C3 (amended): provided no cluster stores an LR of exactly `0` for the
hypothesis, the combiner maps it to the product of its LR values over the
clusters containing an entry for it (absent entries contributing `1`); the
empty cluster list yields the empty mapping; and all-`1` clusters (at least
one) yield cumulative score `1`. -/
theorem C3_combine_amended :
    (∀ clusters : List (String → Option ℚ),
      (∀ c ∈ clusters, ∀ hId v, c hId = some v → v ≠ 0) →
      ∀ hId, combine clusters hId =
        if (clusters.any fun c => (c hId).isSome) = true
        then some ((clusters.map fun c => (c hId).getD 1).prod)
        else none) ∧
    (∀ hId, combine [] hId = none) ∧
    (∀ clusters : List (String → Option ℚ), clusters ≠ [] →
      ∀ hId, (∀ c ∈ clusters, c hId = some 1) → combine clusters hId = some 1) := by
  refine ⟨fun clusters hnz hId => combine_char clusters hId (fun c hc v => hnz c hc hId v),
    fun _ => rfl, ?_⟩
  intro clusters hne hId hall
  have hnz : ∀ c ∈ clusters, ∀ v, c hId = some v → v ≠ 0 := by
    intro c hc v hv
    rw [hall c hc] at hv
    cases hv
    norm_num
  rw [combine_char clusters hId hnz]
  rcases List.exists_mem_of_ne_nil clusters hne with ⟨c₀, hc₀⟩
  have hany : (clusters.any fun c => (c hId).isSome) = true := by
    apply List.any_eq_true.mpr
    exact ⟨c₀, hc₀, by rw [hall c₀ hc₀]; rfl⟩
  rw [if_pos hany]
  have hone : ((clusters.map fun c => (c hId).getD 1).prod) = 1 := by
    apply List.prod_eq_one
    intro x hx
    rcases List.mem_map.mp hx with ⟨c, hc, rfl⟩
    rw [hall c hc]
    rfl
  rw [hone]

/-- Witness for the amended C3: two all-key clusters with LRs `4` and `1/2`. -/
theorem C3_witness :
    (∀ c ∈ ([fourLRCluster, halfLRCluster] : List (String → Option ℚ)),
      ∀ hId v, c hId = some v → v ≠ 0) ∧
    combine [fourLRCluster, halfLRCluster] "H" =
      (if (([fourLRCluster, halfLRCluster] : List (String → Option ℚ)).any
          fun c => (c "H").isSome) = true
       then some ((([fourLRCluster, halfLRCluster] : List (String → Option ℚ)).map
          fun c => ((c "H").getD 1)).prod)
       else none) :=
  ⟨fourHalf_nonzero, C3_combine_amended.1 _ fourHalf_nonzero "H"⟩

/-- Counterexample to C9 as stated: permuting the two clusters above changes
the combined value for `"H"` from `2` to `0`, because the `|| 1` reset of a
zero accumulator applies only when the zero comes first. -/
theorem C9_counterexample :
    ([zeroLRCluster, twoLRCluster] : List (String → Option ℚ)).Perm
      [twoLRCluster, zeroLRCluster] ∧
    combine [zeroLRCluster, twoLRCluster] "H" = some 2 ∧
    combine [twoLRCluster, zeroLRCluster] "H" = some 0 ∧
    some (2 : ℚ) ≠ some (0 : ℚ) := by
  refine ⟨List.Perm.swap twoLRCluster zeroLRCluster [], ?_, ?_, by simp⟩
  · norm_num [combine, combineStep, jsOrOne, zeroLRCluster, twoLRCluster]
  · norm_num [combine, combineStep, jsOrOne, zeroLRCluster, twoLRCluster]

/-- C9 (amended): the combiner is order-independent on cluster lists none of
whose stored LR values is exactly `0`. -/
theorem C9_combine_order_independent_amended (l₁ l₂ : List (String → Option ℚ))
    (hperm : l₁.Perm l₂)
    (hnz : ∀ c ∈ l₁, ∀ hId v, c hId = some v → v ≠ 0) :
    ∀ hId, combine l₁ hId = combine l₂ hId := by
  intro hId
  have hnz₁ : ∀ c ∈ l₁, ∀ v, c hId = some v → v ≠ 0 := fun c hc v => hnz c hc hId v
  have hnz₂ : ∀ c ∈ l₂, ∀ v, c hId = some v → v ≠ 0 :=
    fun c hc v => hnz c (hperm.mem_iff.mpr hc) hId v
  rw [combine_char l₁ hId hnz₁, combine_char l₂ hId hnz₂]
  have hiff : ((l₁.any fun c => (c hId).isSome) = true) ↔
      ((l₂.any fun c => (c hId).isSome) = true) := by
    simp only [List.any_eq_true]
    constructor
    · rintro ⟨c, hc, hs⟩
      exact ⟨c, hperm.mem_iff.mp hc, hs⟩
    · rintro ⟨c, hc, hs⟩
      exact ⟨c, hperm.mem_iff.mpr hc, hs⟩
  have hany : (l₁.any fun c => (c hId).isSome) = (l₂.any fun c => (c hId).isSome) :=
    Bool.eq_iff_iff.mpr hiff
  have hprod : ((l₁.map fun c => (c hId).getD 1).prod) =
      ((l₂.map fun c => (c hId).getD 1).prod) :=
    (hperm.map _).prod_eq
  rw [hany, hprod]

/-- Witness for the amended C9 on a concrete two-cluster permutation. -/
theorem C9_witness :
    (([fourLRCluster, halfLRCluster] : List (String → Option ℚ)).Perm
      [halfLRCluster, fourLRCluster]) ∧
    combine [fourLRCluster, halfLRCluster] "H" =
      combine [halfLRCluster, fourLRCluster] "H" :=
  ⟨List.Perm.swap halfLRCluster fourLRCluster [],
    C9_combine_order_independent_amended _ _
      (List.Perm.swap halfLRCluster fourLRCluster []) fourHalf_nonzero "H"⟩

/-- Witness for the amended C5 at two uniform judgments `Q = 1`, `U = 1`. -/
theorem C5_witness :
    (([⟨"A", 1, 1⟩, ⟨"B", 1, 1⟩] : List Judgment) ≠ []) ∧ (0 : ℚ) < 1 ∧
    (∀ item ∈ ([⟨"A", 1, 1⟩, ⟨"B", 1, 1⟩] : List Judgment),
      item.Q_i = 1 ∧ item.U_i = 1) ∧
    ∀ r ∈ processBayesianConfirmation [⟨"A", 1, 1⟩, ⟨"B", 1, 1⟩], r.LR = 1 :=
  ⟨by simp, by norm_num, by norm_num,
    C5_uniform_neutral_amended _ 1 1 (by simp) (by norm_num) (by norm_num) (by norm_num)⟩

/-- Witness for the amended C6. -/
theorem C6_witness :
    (0 : ℚ) < (⟨"H1", 1, 2⟩ : Judgment).Q_i ∧ (0 : ℚ) ≤ (⟨"H1", 1, 2⟩ : Judgment).U_i ∧
    processBayesianConfirmation [⟨"H1", 1, 2⟩] = [⟨"H1", 1, 2, 0, 1⟩] :=
  ⟨by norm_num, by norm_num,
    C6_single_judgment_amended ⟨"H1", 1, 2⟩ (by norm_num) (by norm_num)⟩
